import Mathlib

set_option maxRecDepth 100000

/-!
Verification of the csv-diff-tool repository.

The embedding below translates the two core source modules:
- src/csv_diff/core.py : the keyed / ordered / multiset diff engine
  (`_make_key`, `_compare_unordered`, `_compare_ordered`, `compare_csv_files`);
- src/change_tracker.py : the `ChangeTracker` class
  (`normalize_name`, `create_user_key`, `find_common_users`,
  `similarity_score`, `detect_field_change`, `compare_users`).

Records are modelled as association lists from column names to string
values; Python dictionaries become insertion-ordered association lists
with overwrite-on-duplicate semantics; Python string operations
(`strip`, `lower`, `upper`, `replace`, `split`) are modelled character
by character over `List Char` (ASCII semantics).  File loading and
report rendering are I/O and stay outside the embedding; the
`raw_diff` field of a `DiffResult` is therefore always `none` here.
-/

/-- A record: ordered mapping from column name to string value
(mirrors the `Dict[str, str]` rows produced by `_read_csv` and the
`pd.Series` rows used by `ChangeTracker`). -/
abbrev Row := List (String × String)

/-- First-match association-list lookup (Python `dict.__getitem__` /
`Series.get` returning `None` when the key is absent). -/
def alookup {α β : Type} [DecidableEq α] : List (α × β) → α → Option β
  | [], _ => none
  | p :: ps, k => if p.1 = k then some p.2 else alookup ps k

/-- `row.get(k, "")`: lookup with empty-string default. -/
def rowGet (r : Row) (k : String) : String := (alookup r k).getD ""

/-- Python `dict` assignment `m[k] = v`: overwrite in place if the key
is present (keeping its original position), append otherwise. -/
def dictInsert {α : Type} [DecidableEq α] (m : List (α × Row)) (k : α) (v : Row) :
    List (α × Row) :=
  if m.any (fun p => p.1 = k) then m.map (fun p => if p.1 = k then (k, v) else p)
  else m ++ [(k, v)]

/-- Helper for `firstDedup`: keep elements not yet seen. -/
def firstDedupAux {α : Type} [DecidableEq α] (seen : List α) : List α → List α
  | [] => []
  | x :: xs => if x ∈ seen then firstDedupAux seen xs else x :: firstDedupAux (x :: seen) xs

/-- Python `dict.fromkeys`: deduplicate keeping first occurrences. -/
def firstDedup {α : Type} [DecidableEq α] (l : List α) : List α := firstDedupAux [] l

/-- Number of occurrences of `x` in `l` (Python `Counter` count). -/
def countEq {α : Type} [DecidableEq α] (l : List α) (x : α) : Nat :=
  (l.filter (fun y => y = x)).length

-- ### Python string primitives, modelled over `List Char`

/-- ASCII whitespace recognised by Python `str.strip` / `str.split`. -/
def isSpaceChar (c : Char) : Bool :=
  c = ' ' || c = '\t' || c = '\n' || c = '\r'

/-- Python `str.strip()`. -/
def pyStrip (s : String) : String :=
  String.mk (((s.toList.dropWhile isSpaceChar).reverse.dropWhile isSpaceChar).reverse)

/-- Python `str.lower()` (ASCII). -/
def pyLower (s : String) : String := String.mk (s.toList.map Char.toLower)

/-- Python `str.upper()` (ASCII). -/
def pyUpper (s : String) : String := String.mk (s.toList.map Char.toUpper)

/-- Does `pat` occur at the head of `l`? -/
def headMatches : List Char → List Char → Bool
  | [], _ => true
  | _ :: _, [] => false
  | p :: ps, c :: cs => p = c && headMatches ps cs

/-- One left-to-right pass of non-overlapping replacement
(Python `str.replace` semantics for a non-empty pattern; every call
site in the sources uses a non-empty literal pattern).  The `skip`
counter discards the tail characters of a pattern occurrence that was
already matched at an earlier position. -/
def replSkip (pat rep : List Char) : List Char → Nat → List Char
  | [], _ => []
  | _ :: cs, Nat.succ skip => replSkip pat rep cs skip
  | c :: cs, 0 =>
    if headMatches pat (c :: cs) then rep ++ replSkip pat rep cs (pat.length - 1)
    else c :: replSkip pat rep cs 0

/-- Python `s.replace(pat, rep)` for the non-empty patterns used in the
sources. -/
def pyReplace (s pat rep : String) : String :=
  String.mk (replSkip pat.toList rep.toList s.toList 0)

/-- Helper for `str.split()`: accumulate the current word (reversed). -/
def splitWordsAux : List Char → List Char → List String
  | [], cur => if cur.isEmpty then [] else [String.mk cur.reverse]
  | c :: rest, cur =>
    if isSpaceChar c then
      if cur.isEmpty then splitWordsAux rest []
      else String.mk cur.reverse :: splitWordsAux rest []
    else splitWordsAux rest (c :: cur)

/-- Python `str.split()` with no argument: split on whitespace runs,
discarding empty pieces. -/
def pySplit (s : String) : List String := splitWordsAux s.toList []

/-- Join words with single spaces (Python `" ".join(...)`). -/
def joinSp : List String → String
  | [] => ""
  | [w] => w
  | w :: ws => w ++ " " ++ joinSp ws

-- sanity tests for the string model (Python reference semantics)
example : pyReplace "aaa" "aa" "b" = "ba" := by decide
example : pyReplace "a    b" "  " " " = "a  b" := by decide
example : pyStrip "  x y\t" = "x y" := by decide
example : pySplit "  a   bc " = ["a", "bc"] := by decide
example : joinSp (pySplit "  a   bc ") = "a bc" := by decide

-- ### difflib.SequenceMatcher, modelled over `List Char`
-- (`ratio` of `SequenceMatcher(None, a, b)`; the autojunk heuristic
-- only activates for strings of length >= 200 and is not modelled).

/-- Length of the common contiguous run at the heads of two lists. -/
def runLen : List Char → List Char → Nat
  | a :: as, b :: bs => if a = b then runLen as bs + 1 else 0
  | _, _ => 0

/-- All candidate matches `(i, j, runLen (a.drop i) (b.drop j))`, in
lexicographic order of `(i, j)`. -/
def candTriples (a b : List Char) : List (Nat × Nat × Nat) :=
  (List.range a.length).flatMap (fun i =>
    (List.range b.length).map (fun j => (i, j, runLen (a.drop i) (b.drop j))))

/-- `find_longest_match` over the whole strings: the lexicographically
first maximal common contiguous run (difflib keeps the earliest match
in `a`, then in `b`, on ties). -/
def bestTriple (a b : List Char) : Nat × Nat × Nat :=
  (candTriples a b).foldl (fun best c => if best.2.2 < c.2.2 then c else best) (0, 0, 0)

/-- Sum of the sizes of the matching blocks (`get_matching_blocks`):
recursively take the longest match and recurse on both sides.  `fuel`
is a structural bound on the recursion depth; each recursive call
strictly decreases the total length of the two lists, so the initial
fuel `a.length + b.length + 1` always suffices. -/
def matchSumFuel : Nat → List Char → List Char → Nat
  | 0, _, _ => 0
  | fuel + 1, a, b =>
    match bestTriple a b with
    | (i, j, k) =>
      if k = 0 then 0
      else
        k + matchSumFuel fuel (a.take i) (b.take j)
          + matchSumFuel fuel (a.drop (i + k)) (b.drop (j + k))

/-- Total size of all matching blocks between `a` and `b`. -/
def matchSum (a b : List Char) : Nat := matchSumFuel (a.length + b.length + 1) a b

/-- `SequenceMatcher(None, a, b).ratio()`: the exact rational
`2*M / (len(a) + len(b))` (`mkRat n d` equals `(n : ℚ) / d` by
`Rat.mkRat_eq_div`), with the empty-inputs case returning 1 as in
difflib. -/
def ratioQ (a b : List Char) : ℚ :=
  if a.length + b.length = 0 then 1
  else mkRat (2 * (matchSum a b : Int)) (a.length + b.length)

/-- `ChangeTracker.similarity_score` (both arguments are already
strings at every call site, so the NaN branch is vacuous). -/
def similarity_score (s1 s2 : String) : ℚ := ratioQ s1.toList s2.toList

-- difflib reference values
example : similarity_score "abcd" "bcde" = mkRat 3 4 := by decide
example : similarity_score "" "x" = 0 := by decide
example : similarity_score "" "" = 1 := by decide
example : similarity_score "manager" "mananger" = mkRat 14 15 := by decide
example : similarity_score "sales" "marketing" = mkRat 2 7 := by decide

-- ### src/csv_diff/core.py

namespace CsvDiff

/-- Key of a `RowChange`: a tuple of strings (keyed and multiset
modes) or a positional index (ordered mode). -/
inductive RKey : Type
  | strs : List String → RKey
  | idx : Nat → RKey
deriving DecidableEq

/-- `CellChange` dataclass. -/
structure CellChange : Type where
  column : String
  old : Option String
  new : Option String
deriving DecidableEq

/-- `RowChange` dataclass. -/
structure RowChange : Type where
  kind : String
  key : RKey
  changes : List CellChange
  row_old : Option Row
  row_new : Option Row
deriving DecidableEq

/-- `DiffResult` dataclass.  `raw_diff` comes from the raw text diff
of the two files, which is I/O and outside the embedded core; it is
always `none` here. -/
structure DiffResult : Type where
  added : List RowChange
  removed : List RowChange
  modified : List RowChange
  raw_diff : Option String
deriving DecidableEq

/-- `_make_key`: tuple of the raw key-column values, with `""` for a
column absent from the row. -/
def _make_key (r : Row) (keys : List String) : List String :=
  keys.map (fun k => rowGet r k)

/-- The key-to-row map `{_make_key(r, keys): r for r in rows}`: later
occurrences overwrite earlier ones. -/
def buildMap (rows : List Row) (keys : List String) : List (List String × Row) :=
  rows.foldl (fun m r => dictInsert m (_make_key r keys) r) []

/-- The inner per-column loop shared by `_compare_unordered` and
`_compare_ordered`: one `CellChange` per column of `allColumns` whose
raw values differ (absent cell treated as the empty string). -/
def diffChanges (allColumns : List String) (r1 r2 : Row) : List CellChange :=
  allColumns.filterMap (fun col =>
    if rowGet r1 col ≠ rowGet r2 col then
      some ⟨col, some (rowGet r1 col), some (rowGet r2 col)⟩
    else none)

/-- `_compare_unordered` (keyed mode).  Python iterates the key-set
differences and intersection; the iteration order of a Python set is
unspecified, so the traversal is modelled in first-map order.  Returns
`(added, removed, modified)` as the source does. -/
def _compare_unordered (headers1 : List String) (rows1 : List Row)
    (headers2 : List String) (rows2 : List Row) (keys : List String) :
    List RowChange × List RowChange × List RowChange :=
  let m1 := buildMap rows1 keys
  let m2 := buildMap rows2 keys
  let allColumns := firstDedup (headers1 ++ headers2)
  let removed := (m1.filter (fun p => (alookup m2 p.1).isNone)).map
    (fun p => ⟨"removed", RKey.strs p.1, [], some p.2, none⟩)
  let added := (m2.filter (fun p => (alookup m1 p.1).isNone)).map
    (fun p => ⟨"added", RKey.strs p.1, [], none, some p.2⟩)
  let modified := m1.filterMap (fun p =>
    match alookup m2 p.1 with
    | none => none
    | some r2 =>
      let changes := diffChanges allColumns p.2 r2
      if changes = [] then none
      else some ⟨"modified", RKey.strs p.1, changes, some p.2, some r2⟩)
  (added, removed, modified)

/-- `_compare_ordered` (positional mode): pair index `i` on each side
for `i < max(len1, len2)`; indices beyond the shorter side become pure
additions or removals. -/
def _compare_ordered (headers1 : List String) (rows1 : List Row)
    (headers2 : List String) (rows2 : List Row) :
    List RowChange × List RowChange × List RowChange :=
  let allColumns := firstDedup (headers1 ++ headers2)
  let maxLen := max rows1.length rows2.length
  let added := (List.range maxLen).filterMap (fun i =>
    if rows1.length ≤ i then
      (rows2.get? i).map (fun r => (⟨"added", RKey.idx i, [], none, some r⟩ : RowChange))
    else none)
  let removed := (List.range maxLen).filterMap (fun i =>
    if rows1.length ≤ i then none
    else if rows2.length ≤ i then
      (rows1.get? i).map (fun r => (⟨"removed", RKey.idx i, [], some r, none⟩ : RowChange))
    else none)
  let modified := (List.range maxLen).filterMap (fun i =>
    match rows1.get? i, rows2.get? i with
    | some r1, some r2 =>
      let changes := diffChanges allColumns r1 r2
      if changes = [] then none
      else some ⟨"modified", RKey.idx i, changes, some r1, some r2⟩
    | _, _ => none)
  (added, removed, modified)

/-- The full-row tuple used by multiset mode: the row's values over
the unioned header list. -/
def tupleOf (headers1 headers2 : List String) (r : Row) : List String :=
  (firstDedup (headers1 ++ headers2)).map (fun h => rowGet r h)

/-- The multiset branch of `compare_csv_files`: `Counter` differences
over full-row tuples.  `Counter` subtraction keeps only positive
counts, which is Nat subtraction; `(c2 - c1).items()` iterates the
distinct tuples of the new side in first-occurrence order. -/
def compareMultiset (headers1 : List String) (rows1 : List Row)
    (headers2 : List String) (rows2 : List Row) :
    List RowChange × List RowChange × List RowChange :=
  let tupleHeaders := firstDedup (headers1 ++ headers2)
  let ts1 := rows1.map (tupleOf headers1 headers2)
  let ts2 := rows2.map (tupleOf headers1 headers2)
  let added := (firstDedup ts2).flatMap (fun t =>
    List.replicate (countEq ts2 t - countEq ts1 t)
      (⟨"added", RKey.strs t, [], none, some (tupleHeaders.zip t)⟩ : RowChange))
  let removed := (firstDedup ts1).flatMap (fun t =>
    List.replicate (countEq ts1 t - countEq ts2 t)
      (⟨"removed", RKey.strs t, [], some (tupleHeaders.zip t), none⟩ : RowChange))
  (added, removed, ([] : List RowChange))

/-- `compare_csv_files` after loading: mode selection.  `ordered`
takes precedence; a non-empty key list selects keyed mode; otherwise
multiset mode (`keys = []` models both `None` and an empty list). -/
def compare_csv_files (headers1 : List String) (rows1 : List Row)
    (headers2 : List String) (rows2 : List Row)
    (keys : List String) (ordered : Bool) : DiffResult :=
  if ordered then
    let (a, r, m) := _compare_ordered headers1 rows1 headers2 rows2
    ⟨a, r, m, none⟩
  else if keys = [] then
    let (a, r, m) := compareMultiset headers1 rows1 headers2 rows2
    ⟨a, r, m, none⟩
  else
    let (a, r, m) := _compare_unordered headers1 rows1 headers2 rows2 keys
    ⟨a, r, m, none⟩

/-- Number of `RowChange` entries carrying a given key. -/
def countKey (l : List RowChange) (k : RKey) : Nat :=
  (l.filter (fun rc => rc.key = k)).length

end CsvDiff

-- spec Scenario A (keyed): one modified entry with one phone CellChange
example :
    CsvDiff.compare_csv_files ["id", "name", "phone"]
      [[("id", "1"), ("name", "Alice"), ("phone", "123")]]
      ["id", "name", "phone"]
      [[("id", "1"), ("name", "Alice"), ("phone", "124")]]
      ["id"] false =
    ⟨[], [],
      [⟨"modified", CsvDiff.RKey.strs ["1"], [⟨"phone", some "123", some "124"⟩],
        some [("id", "1"), ("name", "Alice"), ("phone", "123")],
        some [("id", "1"), ("name", "Alice"), ("phone", "124")]⟩], none⟩ := by decide

-- spec Scenario C (multiset default): one removed plus one added, zero modified
example :
    CsvDiff.compare_csv_files ["c1", "c2"] [[("c1", "A"), ("c2", "1")]]
      ["c1", "c2"] [[("c1", "A"), ("c2", "2")]] [] false =
    ⟨[⟨"added", CsvDiff.RKey.strs ["A", "2"], [], none, some [("c1", "A"), ("c2", "2")]⟩],
      [⟨"removed", CsvDiff.RKey.strs ["A", "1"], [], some [("c1", "A"), ("c2", "1")], none⟩],
      [], none⟩ := by decide

-- spec Scenario B (positional, length mismatch): one removed entry at index 1
example :
    CsvDiff.compare_csv_files ["a"] [[("a", "r0")], [("a", "r1")]]
      ["a"] [[("a", "r0")]] [] true =
    ⟨[], [⟨"removed", CsvDiff.RKey.idx 1, [], some [("a", "r1")], none⟩], [], none⟩ := by
  decide

-- ### src/change_tracker.py

namespace Tracker

/-- `ChangeTracker.normalize_name`: collapse whitespace runs,
uppercase, drop commas and periods, turn hyphens into spaces, strip.
(The `pd.isna` guard is vacuous for string input; the empty-string
test the source also makes is kept.) -/
def normalize_name (name : String) : String :=
  if name = "" then ""
  else
    pyStrip (pyReplace (pyReplace (pyReplace (pyUpper (joinSp (pySplit name))) "," "") "." "") "-" " ")

/-- `ChangeTracker.create_user_key`: normalized English name, plus the
verbatim-stripped Chinese name after a literal bar separator when the
latter is non-empty. -/
def create_user_key (r : Row) : String :=
  let engName := normalize_name (rowGet r "Name")
  let chiName := pyStrip (rowGet r "Chi Name")
  if chiName ≠ "" then engName ++ "|" ++ chiName else engName

/-- The per-side user dictionary built by `find_common_users`: rows
with an empty derived key are skipped; duplicate keys overwrite. -/
def buildUsers (rows : List Row) : List (String × Row) :=
  rows.foldl (fun m r =>
    let k := create_user_key r
    if k ≠ "" then dictInsert m k r else m) []

/-- `find_common_users`: keys present on both sides, with their old
and new records (modelled in old-side dictionary order; a Python set's
iteration order is unspecified). -/
def find_common_users (oldRows newRows : List Row) : List (String × Row × Row) :=
  (buildUsers oldRows).filterMap (fun p =>
    (alookup (buildUsers newRows) p.1).map (fun r2 => (p.1, p.2, r2)))

/-- `new_joiners` statistic: keys only on the new side. -/
def newJoiners (oldRows newRows : List Row) : Nat :=
  ((buildUsers newRows).filter (fun p => (alookup (buildUsers oldRows) p.1).isNone)).length

/-- `resignees` statistic: keys only on the old side. -/
def resignees (oldRows newRows : List Row) : Nat :=
  ((buildUsers oldRows).filter (fun p => (alookup (buildUsers newRows) p.1).isNone)).length

/-- The change dictionary built by `detect_field_change`.  The source
stores `round(similarity, 2)`; the exact rational is kept here since
the rounding is display-only. -/
structure FieldChange : Type where
  field : String
  old_value : String
  new_value : String
  change_type : String
  similarity : ℚ
deriving DecidableEq

/-- The value normalization inside `detect_field_change` (the source
repeats this expression for the old and the new value): lowercase,
hyphens and commas to spaces, one left-to-right pass replacing each
double space with a single space, strip. -/
def normalizeValue (s : String) : String :=
  pyStrip (pyReplace (pyReplace (pyReplace (pyLower s) "-" " ") "," " ") "  " " ")

/-- `ChangeTracker.detect_field_change`: absent values become the
empty string, raw values are stripped; the comparison is made on
`normalizeValue` of each side; the thresholds 0.8 and 0.5 are the
exact rationals 4/5 and 1/2. -/
def detect_field_change (oldValue newValue : Option String) (fieldName : String) :
    Option FieldChange :=
  let oldStr := pyStrip (oldValue.getD "")
  let newStr := pyStrip (newValue.getD "")
  let oldNorm := normalizeValue oldStr
  let newNorm := normalizeValue newStr
  if oldNorm ≠ newNorm then
    let similarity := similarity_score oldNorm newNorm
    let changeType :=
      if oldStr = "" ∧ newStr ≠ "" then "Added"
      else if oldStr ≠ "" ∧ newStr = "" then "Removed"
      else if mkRat 4 5 < similarity then "Minor Change (Possible Typo)"
      else if mkRat 1 2 < similarity then "Moderate Change"
      else "Major Change"
    some ⟨fieldName, oldStr, newStr, changeType, similarity⟩
  else none

/-- `fields_to_compare` in `ChangeTracker.compare_users`. -/
def fields_to_compare : List String := ["Name", "Title", "Phone", "Fax", "Location"]

/-- The per-pair inner loop of `compare_users`: the detected changes
over the five compared fields, in field order. -/
def compare_user (oldR newR : Row) : List FieldChange :=
  fields_to_compare.filterMap (fun f =>
    detect_field_change (alookup oldR f) (alookup newR f) f)

/-- One entry of `self.changes` in `compare_users`. -/
structure UserChanges : Type where
  user : String
  chinese_name : String
  changes : List FieldChange
deriving DecidableEq

/-- The `self.changes` list produced by `compare_users`: one entry per
common user with at least one detected field change. -/
def changesReport (oldRows newRows : List Row) : List UserChanges :=
  (find_common_users oldRows newRows).filterMap (fun t =>
    let userChanges := compare_user t.2.1 t.2.2
    if userChanges = [] then none
    else some ⟨rowGet t.2.1 "Name", rowGet t.2.1 "Chi Name", userChanges⟩)

/-- The `total_field_changes` statistic. -/
def totalFieldChanges (oldRows newRows : List Row) : Nat :=
  ((find_common_users oldRows newRows).map (fun t => (compare_user t.2.1 t.2.2).length)).sum

/-- The `users_with_changes` statistic (user keys are pairwise
distinct in `common_users`, so the Python set size is the count). -/
def usersWithChanges (oldRows newRows : List Row) : Nat :=
  ((find_common_users oldRows newRows).filter (fun t => ¬ compare_user t.2.1 t.2.2 = [])).length

end Tracker

-- The name normalizer keeps apostrophes: an apostrophe-bearing name and
-- its apostrophe-free variant resolve to different keys.
example :
    Tracker.normalize_name (String.mk ['O', Char.ofNat 39, 'B', 'r', 'i', 'e', 'n', ',', ' ', 'J', 'o', 'h', 'n'])
      ≠ Tracker.normalize_name "OBRIEN JOHN" := by decide

-- Hyphen and comma noise is absorbed by the name normalizer.
example : Tracker.normalize_name "Lee,  Ann-May" = Tracker.normalize_name "LEE ANN MAY" := by
  decide

-- ### Infrastructure lemmas

theorem alookup_eq_none {α β : Type} [DecidableEq α] (l : List (α × β)) (k : α) :
    alookup l k = none ↔ ∀ p ∈ l, p.1 ≠ k := by
  induction l with
  | nil => simp [alookup]
  | cons p ps ih =>
    simp only [alookup, List.mem_cons]
    by_cases h : p.1 = k
    · simp only [if_pos h]
      constructor
      · intro hc; cases hc
      · intro hall; exact absurd h (hall p (Or.inl rfl))
    · simp only [if_neg h]
      rw [ih]
      constructor
      · intro hall q hq
        rcases hq with rfl | hq
        · exact h
        · exact hall q hq
      · intro hall q hq
        exact hall q (Or.inr hq)

theorem alookup_isSome_of_mem {α β : Type} [DecidableEq α] {l : List (α × β)} {p : α × β}
    (hp : p ∈ l) : (alookup l p.1).isSome := by
  induction l with
  | nil => cases hp
  | cons q qs ih =>
    rcases List.mem_cons.mp hp with h | h
    · subst h; simp [alookup]
    · by_cases hq : q.1 = p.1 <;> simp [alookup, hq, ih h]

theorem alookup_of_mem_nodup {α β : Type} [DecidableEq α] {l : List (α × β)} {p : α × β}
    (hnd : (l.map Prod.fst).Nodup) (hp : p ∈ l) : alookup l p.1 = some p.2 := by
  induction l with
  | nil => cases hp
  | cons q qs ih =>
    simp only [List.map_cons, List.nodup_cons] at hnd
    rcases List.mem_cons.mp hp with h | h
    · subst h; simp [alookup]
    · have hne : q.1 ≠ p.1 := by
        intro he
        exact hnd.1 (he ▸ List.mem_map_of_mem Prod.fst h)
      simp [alookup, hne, ih hnd.2 h]

theorem mem_of_alookup_eq_some {α β : Type} [DecidableEq α] {l : List (α × β)} {k : α} {v : β}
    (h : alookup l k = some v) : (k, v) ∈ l := by
  induction l with
  | nil => simp [alookup] at h
  | cons q qs ih =>
    by_cases hq : q.1 = k
    · simp only [alookup, hq, if_pos] at h
      injection h with h
      exact List.mem_cons.mpr (Or.inl (by rw [← hq, ← h]))
    · simp only [alookup, hq, if_neg, ite_false] at h
      exact List.mem_cons.mpr (Or.inr (ih h))

theorem map_fst_dictInsert {α : Type} [DecidableEq α] (m : List (α × Row)) (k : α) (v : Row) :
    (dictInsert m k v).map Prod.fst =
      if m.any (fun p => p.1 = k) then m.map Prod.fst else m.map Prod.fst ++ [k] := by
  unfold dictInsert
  split
  · rw [List.map_map]
    congr 1
    funext p
    by_cases h : p.1 = k <;> simp [h]
  · simp

theorem nodup_fst_dictInsert {α : Type} [DecidableEq α] {m : List (α × Row)} (k : α) (v : Row)
    (hnd : (m.map Prod.fst).Nodup) : ((dictInsert m k v).map Prod.fst).Nodup := by
  rw [map_fst_dictInsert]
  split
  · exact hnd
  · rename_i hany
    rw [List.nodup_append]
    refine ⟨hnd, List.nodup_singleton k, ?_⟩
    intro a ha hb
    rw [List.mem_singleton] at hb
    subst hb
    rcases List.mem_map.mp ha with ⟨p, hp, hfst⟩
    exact hany (List.any_eq_true.mpr ⟨p, hp, by simp [hfst]⟩)

theorem mem_firstDedupAux {α : Type} [DecidableEq α] (seen : List α) (l : List α) (a : α) :
    a ∈ firstDedupAux seen l ↔ a ∈ l ∧ a ∉ seen := by
  induction l generalizing seen with
  | nil => simp [firstDedupAux]
  | cons x xs ih =>
    by_cases hx : x ∈ seen
    · simp only [firstDedupAux, if_pos hx, ih]
      constructor
      · rintro ⟨h1, h2⟩; exact ⟨List.mem_cons_of_mem _ h1, h2⟩
      · rintro ⟨h1, h2⟩
        rcases List.mem_cons.mp h1 with rfl | h1
        · exact absurd hx h2
        · exact ⟨h1, h2⟩
    · simp only [firstDedupAux, if_neg hx]
      constructor
      · intro hmem
        rcases List.mem_cons.mp hmem with rfl | hmem
        · exact ⟨List.mem_cons_self _ _, hx⟩
        · obtain ⟨h1, h2⟩ := (ih _).mp hmem
          exact ⟨List.mem_cons_of_mem _ h1, fun hs => h2 (List.mem_cons_of_mem _ hs)⟩
      · rintro ⟨h1, h2⟩
        rcases List.mem_cons.mp h1 with rfl | h1
        · exact List.mem_cons_self _ _
        · by_cases hax : a = x
          · subst hax; exact List.mem_cons_self _ _
          · refine List.mem_cons_of_mem _ ((ih _).mpr ⟨h1, fun hs => ?_⟩)
            rcases List.mem_cons.mp hs with h | h
            · exact hax h
            · exact h2 h

theorem nodup_firstDedupAux {α : Type} [DecidableEq α] (seen : List α) (l : List α) :
    (firstDedupAux seen l).Nodup := by
  induction l generalizing seen with
  | nil => simp [firstDedupAux]
  | cons x xs ih =>
    by_cases hx : x ∈ seen
    · simpa [firstDedupAux, if_pos hx] using ih seen
    · simp only [firstDedupAux, if_neg hx, List.nodup_cons]
      refine ⟨fun hmem => ?_, ih (x :: seen)⟩
      exact ((mem_firstDedupAux _ _ _).mp hmem).2 (List.mem_cons_self x seen)

theorem mem_firstDedup {α : Type} [DecidableEq α] (l : List α) (a : α) :
    a ∈ firstDedup l ↔ a ∈ l := by
  simp [firstDedup, mem_firstDedupAux]

theorem nodup_firstDedup {α : Type} [DecidableEq α] (l : List α) :
    (firstDedup l).Nodup := nodup_firstDedupAux [] l

theorem countEq_eq_zero {α : Type} [DecidableEq α] (l : List α) (x : α) (hx : x ∉ l) :
    countEq l x = 0 := by
  unfold countEq
  rw [List.length_eq_zero, List.filter_eq_nil_iff]
  intro a ha
  simp only [decide_eq_true_eq]
  rintro rfl
  exact hx ha

-- ### Claim C1

/-- Claim C1 counterexample: with key column "missing" absent from
both sources' header sets, the keyed comparison does not fail; it
returns a full DiffResult (here with one modified RowChange), so no
ConfigurationError is ever raised. -/
theorem C1_counterexample :
    "missing" ∉ ["a"] ∧
    CsvDiff.compare_csv_files ["a"] [[("a", "1")]] ["a"] [[("a", "2")]] ["missing"] false =
      ⟨[], [],
        [⟨"modified", CsvDiff.RKey.strs [""], [⟨"a", some "1", some "2"⟩],
          some [("a", "1")], some [("a", "2")]⟩], none⟩ := by
  decide

/-- Claim C1 (amended): a requested key column absent from a row does
not make the comparison fail; `_make_key` substitutes the empty string
for every such column, and a DiffResult is always produced. -/
theorem C1_theorem (r : Row) (ks : List String) (h : ∀ k ∈ ks, alookup r k = none) :
    CsvDiff._make_key r ks = List.replicate ks.length "" := by
  induction ks with
  | nil => rfl
  | cons k ks ih =>
    have hk : alookup r k = none := h k (List.mem_cons_self _ _)
    have hrest : ∀ k ∈ ks, alookup r k = none := fun k hkm => h k (List.mem_cons_of_mem _ hkm)
    simp only [CsvDiff._make_key, List.map_cons, List.length_cons, List.replicate_succ]
    exact congrArg₂ _ (by simp [rowGet, hk]) (ih hrest)

/-- Claim C1 witness. -/
theorem C1_witness :
    (∀ k ∈ ["missing", "also"], alookup ([("a", "1")] : Row) k = none) ∧
    CsvDiff._make_key [("a", "1")] ["missing", "also"] = List.replicate 2 "" :=
  ⟨by decide, C1_theorem [("a", "1")] ["missing", "also"] (by decide)⟩

-- ### Claim C2

/-- The string O'Brien (built characterwise; 39 is the apostrophe). -/
def oBrien : String := String.mk ['O', Char.ofNat 39, 'B', 'r', 'i', 'e', 'n']

/-- Claim C2 counterexample: the pair O'Brien vs "OBrien," is NOT
suppressed by the classifier — `normalizeValue` keeps apostrophes, so
the normalized values differ and a Minor Change is reported. -/
theorem C2_counterexample :
    Tracker.detect_field_change (some oBrien) (some "OBrien,") "Name" ≠ none ∧
    (Tracker.detect_field_change (some oBrien) (some "OBrien,") "Name").map
      Tracker.FieldChange.change_type = some "Minor Change (Possible Typo)" := by
  decide

/-- Claim C2 (amended): if the two values are equal after the code's
normalization (lowercase, hyphens and commas to spaces, a single
left-to-right double-space collapsing pass, trim), no change is
reported; this normalization keeps apostrophes, so O'Brien vs
"OBrien," is reported as a Minor Change rather than suppressed. -/
theorem C2_theorem (oldValue newValue : Option String) (fieldName : String)
    (h : Tracker.normalizeValue (pyStrip (oldValue.getD "")) =
      Tracker.normalizeValue (pyStrip (newValue.getD ""))) :
    Tracker.detect_field_change oldValue newValue fieldName = none := by
  simp [Tracker.detect_field_change, h]

/-- Claim C2 witness. -/
theorem C2_witness :
    Tracker.normalizeValue (pyStrip ((some "A-B").getD "")) =
      Tracker.normalizeValue (pyStrip ((some "a,b").getD "")) ∧
    Tracker.detect_field_change (some "A-B") (some "a,b") "Title" = none :=
  ⟨by decide, C2_theorem (some "A-B") (some "a,b") "Title" (by decide)⟩

-- ### Claim C3

/-- Claim C3 counterexample: for old value "," and new value "x" the
normalized old value is empty and the normalized new value is not, so
the claim predicts the label Added; the code tests the raw stripped
values ("," is non-empty) and produces Major Change instead. -/
theorem C3_counterexample :
    Tracker.normalizeValue (pyStrip ",") = "" ∧
    Tracker.normalizeValue (pyStrip "x") ≠ "" ∧
    (Tracker.detect_field_change (some ",") (some "x") "Phone").map
      Tracker.FieldChange.change_type = some "Major Change" := by
  decide

/-- Claim C3 (amended): when the normalized values differ, the label
is determined strictly in this order — raw stripped old empty and raw
stripped new non-empty gives Added; raw stripped old non-empty and raw
stripped new empty gives Removed; similarity (of the normalized
values) above 4/5 gives Minor Change; above 1/2 gives Moderate Change;
otherwise Major Change.  The emptiness tests are on the raw stripped
values, not the normalized ones as the claim stated. -/
theorem C3_theorem (oldValue newValue : Option String) (fieldName : String)
    (h : Tracker.normalizeValue (pyStrip (oldValue.getD "")) ≠
      Tracker.normalizeValue (pyStrip (newValue.getD ""))) :
    Tracker.detect_field_change oldValue newValue fieldName =
      some ⟨fieldName, pyStrip (oldValue.getD ""), pyStrip (newValue.getD ""),
        (if pyStrip (oldValue.getD "") = "" ∧ pyStrip (newValue.getD "") ≠ "" then "Added"
         else if pyStrip (oldValue.getD "") ≠ "" ∧ pyStrip (newValue.getD "") = "" then "Removed"
         else if mkRat 4 5 < similarity_score (Tracker.normalizeValue (pyStrip (oldValue.getD "")))
            (Tracker.normalizeValue (pyStrip (newValue.getD ""))) then "Minor Change (Possible Typo)"
         else if mkRat 1 2 < similarity_score (Tracker.normalizeValue (pyStrip (oldValue.getD "")))
            (Tracker.normalizeValue (pyStrip (newValue.getD ""))) then "Moderate Change"
         else "Major Change"),
        similarity_score (Tracker.normalizeValue (pyStrip (oldValue.getD "")))
          (Tracker.normalizeValue (pyStrip (newValue.getD "")))⟩ := by
  simp only [Tracker.detect_field_change, if_pos h]

/-- Claim C3 witness (spec Scenario E: "sales" vs "marketing" falls in
the Major Change bucket). -/
theorem C3_witness :
    Tracker.normalizeValue (pyStrip ((some "sales").getD "")) ≠
      Tracker.normalizeValue (pyStrip ((some "marketing").getD "")) ∧
    Tracker.detect_field_change (some "sales") (some "marketing") "Title" =
      some ⟨"Title", pyStrip ((some "sales").getD ""), pyStrip ((some "marketing").getD ""),
        (if pyStrip ((some "sales").getD "") = "" ∧ pyStrip ((some "marketing").getD "") ≠ "" then "Added"
         else if pyStrip ((some "sales").getD "") ≠ "" ∧ pyStrip ((some "marketing").getD "") = "" then "Removed"
         else if mkRat 4 5 < similarity_score (Tracker.normalizeValue (pyStrip ((some "sales").getD "")))
            (Tracker.normalizeValue (pyStrip ((some "marketing").getD ""))) then "Minor Change (Possible Typo)"
         else if mkRat 1 2 < similarity_score (Tracker.normalizeValue (pyStrip ((some "sales").getD "")))
            (Tracker.normalizeValue (pyStrip ((some "marketing").getD ""))) then "Moderate Change"
         else "Major Change"),
        similarity_score (Tracker.normalizeValue (pyStrip ((some "sales").getD "")))
          (Tracker.normalizeValue (pyStrip ((some "marketing").getD "")))⟩ :=
  ⟨by decide, C3_theorem (some "sales") (some "marketing") "Title" (by decide)⟩

-- ### Claim C5

/-- A string free of the bar separator used by `create_user_key`. -/
def barFree (s : String) : Prop := '|' ∉ s.toList

instance (s : String) : Decidable (barFree s) :=
  inferInstanceAs (Decidable ('|' ∉ s.toList))

/-- Splitting at a separator character absent from the left parts is
unambiguous. -/
theorem sep_split (c : Char) (l1 : List Char) :
    ∀ (l2 r1 r2 : List Char), c ∉ l1 → c ∉ l2 →
      l1 ++ c :: r1 = l2 ++ c :: r2 → l1 = l2 ∧ r1 = r2 := by
  induction l1 with
  | nil =>
    intro l2 r1 r2 _ hc2 heq
    cases l2 with
    | nil =>
      simp only [List.nil_append, List.cons.injEq] at heq
      exact ⟨rfl, heq.2⟩
    | cons b l2 =>
      simp only [List.nil_append, List.cons_append, List.cons.injEq] at heq
      exact absurd (heq.1 ▸ List.mem_cons_self b l2) hc2
  | cons a l1 ih =>
    intro l2 r1 r2 hc1 hc2 heq
    cases l2 with
    | nil =>
      simp only [List.cons_append, List.nil_append, List.cons.injEq] at heq
      exact absurd (heq.1 ▸ List.mem_cons_self a l1) hc1
    | cons b l2 =>
      simp only [List.cons_append, List.cons.injEq] at heq
      obtain ⟨rfl, heq⟩ := heq
      have hc1l : c ∉ l1 := fun hm => hc1 (List.mem_cons_of_mem _ hm)
      have hc2l : c ∉ l2 := fun hm => hc2 (List.mem_cons_of_mem _ hm)
      obtain ⟨h1, h2⟩ := ih l2 r1 r2 hc1l hc2l heq
      exact ⟨by rw [h1], h2⟩

/-- Concatenating through a bar is injective on bar-free components. -/
theorem bar_concat_inj (e1 c1 e2 c2 : String)
    (he1 : barFree e1) (_hc1 : barFree c1) (he2 : barFree e2) (_hc2 : barFree c2)
    (h : e1 ++ "|" ++ c1 = e2 ++ "|" ++ c2) : e1 = e2 ∧ c1 = c2 := by
  have hd : e1.data ++ '|' :: c1.data = e2.data ++ '|' :: c2.data := by
    have := congrArg String.data h
    simpa [String.data_append] using this
  obtain ⟨h1, h2⟩ := sep_split '|' e1.data e2.data c1.data c2.data he1 he2 hd
  exact ⟨String.ext h1, String.ext h2⟩

/-- Claim C5 counterexample: the bar separator can occur inside the
components, so two records with distinct (normalized primary, stripped
secondary) component pairs can collide on the same derived key. -/
theorem C5_counterexample :
    Tracker.create_user_key [("Name", "A|B"), ("Chi Name", "C")] =
      Tracker.create_user_key [("Name", "A"), ("Chi Name", "B|C")] ∧
    (Tracker.normalize_name (rowGet [("Name", "A|B"), ("Chi Name", "C")] "Name"),
      pyStrip (rowGet [("Name", "A|B"), ("Chi Name", "C")] "Chi Name")) ≠
      (Tracker.normalize_name (rowGet [("Name", "A"), ("Chi Name", "B|C")] "Name"),
        pyStrip (rowGet [("Name", "A"), ("Chi Name", "B|C")] "Chi Name")) := by
  decide

/-- Claim C5 (amended): the key of a record with a non-empty stripped
secondary field is the normalized primary field, a literal bar, and
the stripped secondary field; without a secondary field it is the
normalized primary field alone.  The bar is not guaranteed absent from
the components; distinct component pairs yield distinct keys only when
no component contains a bar. -/
theorem C5_theorem (r1 r2 : Row) :
    (Tracker.create_user_key r1 =
      (if pyStrip (rowGet r1 "Chi Name") ≠ "" then
        Tracker.normalize_name (rowGet r1 "Name") ++ "|" ++ pyStrip (rowGet r1 "Chi Name")
       else Tracker.normalize_name (rowGet r1 "Name"))) ∧
    (barFree (Tracker.normalize_name (rowGet r1 "Name")) →
     barFree (pyStrip (rowGet r1 "Chi Name")) →
     barFree (Tracker.normalize_name (rowGet r2 "Name")) →
     barFree (pyStrip (rowGet r2 "Chi Name")) →
     Tracker.create_user_key r1 = Tracker.create_user_key r2 →
     Tracker.normalize_name (rowGet r1 "Name") = Tracker.normalize_name (rowGet r2 "Name") ∧
       pyStrip (rowGet r1 "Chi Name") = pyStrip (rowGet r2 "Chi Name")) := by
  constructor
  · rfl
  · intro he1 hc1 he2 hc2 hkey
    simp only [Tracker.create_user_key] at hkey
    by_cases h1 : pyStrip (rowGet r1 "Chi Name") = ""
    · by_cases h2 : pyStrip (rowGet r2 "Chi Name") = ""
      · rw [if_neg (by simpa using h1), if_neg (by simpa using h2)] at hkey
        exact ⟨hkey, h1.trans h2.symm⟩
      · rw [if_neg (by simpa using h1), if_pos (by simpa using h2)] at hkey
        exfalso
        apply he1
        rw [hkey]
        show '|' ∈ (_ ++ "|" ++ _).data
        simp [String.data_append]
    · by_cases h2 : pyStrip (rowGet r2 "Chi Name") = ""
      · rw [if_pos (by simpa using h1), if_neg (by simpa using h2)] at hkey
        exfalso
        apply he2
        rw [← hkey]
        show '|' ∈ (_ ++ "|" ++ _).data
        simp [String.data_append]
      · rw [if_pos (by simpa using h1), if_pos (by simpa using h2)] at hkey
        exact bar_concat_inj _ _ _ _ he1 hc1 he2 hc2 hkey

/-- Claim C5 witness: two cosmetically different spellings of the same
name resolve to the same key, and the injectivity direction recovers
equal components. -/
theorem C5_witness :
    (barFree (Tracker.normalize_name (rowGet [("Name", "Ann-Lee"), ("Chi Name", "X")] "Name")) ∧
     barFree (pyStrip (rowGet [("Name", "Ann-Lee"), ("Chi Name", "X")] "Chi Name")) ∧
     barFree (Tracker.normalize_name (rowGet [("Name", "ANN  LEE"), ("Chi Name", "X")] "Name")) ∧
     barFree (pyStrip (rowGet [("Name", "ANN  LEE"), ("Chi Name", "X")] "Chi Name")) ∧
     Tracker.create_user_key [("Name", "Ann-Lee"), ("Chi Name", "X")] =
       Tracker.create_user_key [("Name", "ANN  LEE"), ("Chi Name", "X")]) ∧
    (Tracker.normalize_name (rowGet [("Name", "Ann-Lee"), ("Chi Name", "X")] "Name") =
       Tracker.normalize_name (rowGet [("Name", "ANN  LEE"), ("Chi Name", "X")] "Name") ∧
     pyStrip (rowGet [("Name", "Ann-Lee"), ("Chi Name", "X")] "Chi Name") =
       pyStrip (rowGet [("Name", "ANN  LEE"), ("Chi Name", "X")] "Chi Name")) :=
  ⟨⟨by decide, by decide, by decide, by decide, by decide⟩,
    (C5_theorem [("Name", "Ann-Lee"), ("Chi Name", "X")] [("Name", "ANN  LEE"), ("Chi Name", "X")]).2
      (by decide) (by decide) (by decide) (by decide) (by decide)⟩

-- ### Claim C4

/-- A record whose derived key is empty is a no-op for the user
dictionaries of `find_common_users`. -/
theorem buildUsers_skip (r : Row) (hr : Tracker.create_user_key r = "") (l1 l2 : List Row) :
    Tracker.buildUsers (l1 ++ r :: l2) = Tracker.buildUsers (l1 ++ l2) := by
  unfold Tracker.buildUsers
  rw [List.foldl_append, List.foldl_append, List.foldl_cons]
  congr 1
  simp [hr]

/-- Claim C4: a record whose derived identity key is empty is excluded
from matching entirely — removing it from either source changes
nothing: not the common (matched) users, not the new-joiner or
resignee counts, not the reported changes or statistics.  It therefore
never contributes an added, removed, or modified entry. -/
theorem C4_theorem (r : Row) (hr : Tracker.create_user_key r = "") (l1 l2 rows : List Row) :
    Tracker.find_common_users (l1 ++ r :: l2) rows = Tracker.find_common_users (l1 ++ l2) rows ∧
    Tracker.find_common_users rows (l1 ++ r :: l2) = Tracker.find_common_users rows (l1 ++ l2) ∧
    Tracker.newJoiners (l1 ++ r :: l2) rows = Tracker.newJoiners (l1 ++ l2) rows ∧
    Tracker.newJoiners rows (l1 ++ r :: l2) = Tracker.newJoiners rows (l1 ++ l2) ∧
    Tracker.resignees (l1 ++ r :: l2) rows = Tracker.resignees (l1 ++ l2) rows ∧
    Tracker.resignees rows (l1 ++ r :: l2) = Tracker.resignees rows (l1 ++ l2) ∧
    Tracker.changesReport (l1 ++ r :: l2) rows = Tracker.changesReport (l1 ++ l2) rows ∧
    Tracker.changesReport rows (l1 ++ r :: l2) = Tracker.changesReport rows (l1 ++ l2) ∧
    Tracker.totalFieldChanges (l1 ++ r :: l2) rows = Tracker.totalFieldChanges (l1 ++ l2) rows ∧
    Tracker.totalFieldChanges rows (l1 ++ r :: l2) = Tracker.totalFieldChanges rows (l1 ++ l2) ∧
    Tracker.usersWithChanges (l1 ++ r :: l2) rows = Tracker.usersWithChanges (l1 ++ l2) rows ∧
    Tracker.usersWithChanges rows (l1 ++ r :: l2) = Tracker.usersWithChanges rows (l1 ++ l2) := by
  have h := buildUsers_skip r hr l1 l2
  simp [Tracker.find_common_users, Tracker.newJoiners, Tracker.resignees,
    Tracker.changesReport, Tracker.totalFieldChanges, Tracker.usersWithChanges, h]

/-- Claim C4 witness: a whitespace-only Name yields an empty key and
the record is invisible to the matcher. -/
theorem C4_witness :
    Tracker.create_user_key [("Name", " ")] = "" ∧
    (Tracker.find_common_users [[("Name", " ")]] [[("Name", "Bo")]] =
        Tracker.find_common_users [] [[("Name", "Bo")]] ∧
      Tracker.find_common_users [[("Name", "Bo")]] [[("Name", " ")]] =
        Tracker.find_common_users [[("Name", "Bo")]] [] ∧
      Tracker.newJoiners [[("Name", " ")]] [[("Name", "Bo")]] =
        Tracker.newJoiners [] [[("Name", "Bo")]] ∧
      Tracker.newJoiners [[("Name", "Bo")]] [[("Name", " ")]] =
        Tracker.newJoiners [[("Name", "Bo")]] [] ∧
      Tracker.resignees [[("Name", " ")]] [[("Name", "Bo")]] =
        Tracker.resignees [] [[("Name", "Bo")]] ∧
      Tracker.resignees [[("Name", "Bo")]] [[("Name", " ")]] =
        Tracker.resignees [[("Name", "Bo")]] [] ∧
      Tracker.changesReport [[("Name", " ")]] [[("Name", "Bo")]] =
        Tracker.changesReport [] [[("Name", "Bo")]] ∧
      Tracker.changesReport [[("Name", "Bo")]] [[("Name", " ")]] =
        Tracker.changesReport [[("Name", "Bo")]] [] ∧
      Tracker.totalFieldChanges [[("Name", " ")]] [[("Name", "Bo")]] =
        Tracker.totalFieldChanges [] [[("Name", "Bo")]] ∧
      Tracker.totalFieldChanges [[("Name", "Bo")]] [[("Name", " ")]] =
        Tracker.totalFieldChanges [[("Name", "Bo")]] [] ∧
      Tracker.usersWithChanges [[("Name", " ")]] [[("Name", "Bo")]] =
        Tracker.usersWithChanges [] [[("Name", "Bo")]] ∧
      Tracker.usersWithChanges [[("Name", "Bo")]] [[("Name", " ")]] =
        Tracker.usersWithChanges [[("Name", "Bo")]] []) :=
  ⟨by decide, C4_theorem [("Name", " ")] (by decide) [] [] [[("Name", "Bo")]]⟩

-- ### Claim C10

/-- `detect_field_change` stamps the change with the compared field. -/
theorem detect_field_change_field {oldValue newValue : Option String} {f : String}
    {c : Tracker.FieldChange} (h : Tracker.detect_field_change oldValue newValue f = some c) :
    c.field = f := by
  simp only [Tracker.detect_field_change] at h
  split at h
  · injection h with h
    rw [← h]
  · exact absurd h (by simp)

/-- Equal values are never reported as a change. -/
theorem detect_field_change_self (v : Option String) (f : String) :
    Tracker.detect_field_change v v f = none := by
  simp [Tracker.detect_field_change]

/-- Claim C10: the tracker comparison inspects only the five fields
Name, Title, Phone, Fax, Location — every reported change concerns one
of them, and a pair of matched records agreeing on those five fields
(whatever their other columns hold) yields no change entry at all, so
differences confined to other columns are never reported nor counted. -/
theorem C10_theorem (oldR newR : Row) :
    (∀ c ∈ Tracker.compare_user oldR newR, c.field ∈ Tracker.fields_to_compare) ∧
    ((∀ f ∈ Tracker.fields_to_compare, alookup oldR f = alookup newR f) →
      Tracker.compare_user oldR newR = []) := by
  constructor
  · intro c hc
    obtain ⟨f, hf, hfc⟩ := List.mem_filterMap.mp hc
    rw [detect_field_change_field hfc]
    exact hf
  · intro hagree
    apply List.filterMap_eq_nil_iff.mpr
    intro f hf
    rw [hagree f hf]
    exact detect_field_change_self _ f

/-- Claim C10 witness: a difference confined to a column outside the
five compared fields is not reported. -/
theorem C10_witness :
    (∀ f ∈ Tracker.fields_to_compare,
      alookup ([("Name", "Bo"), ("Dept", "x")] : Row) f =
        alookup ([("Name", "Bo"), ("Dept", "y")] : Row) f) ∧
    Tracker.compare_user [("Name", "Bo"), ("Dept", "x")] [("Name", "Bo"), ("Dept", "y")] = [] :=
  ⟨by decide,
    (C10_theorem [("Name", "Bo"), ("Dept", "x")] [("Name", "Bo"), ("Dept", "y")]).2 (by decide)⟩

-- ### Claim C9

/-- Claim C9: keyed matching uses the raw key-column values verbatim —
`_make_key` is exactly the tuple of raw looked-up values — so records
whose key values differ at all (even only cosmetically) are distinct
identities: comparing one-record sources with different keys yields
exactly one added and one removed RowChange and no modified one. -/
theorem C9_theorem (h1 h2 : List String) (r1 r2 : Row) (keys : List String)
    (hk : keys ≠ []) (hne : CsvDiff._make_key r1 keys ≠ CsvDiff._make_key r2 keys) :
    CsvDiff._make_key r1 keys = keys.map (fun c => rowGet r1 c) ∧
    CsvDiff.compare_csv_files h1 [r1] h2 [r2] keys false =
      ⟨[⟨"added", CsvDiff.RKey.strs (CsvDiff._make_key r2 keys), [], none, some r2⟩],
        [⟨"removed", CsvDiff.RKey.strs (CsvDiff._make_key r1 keys), [], some r1, none⟩],
        [], none⟩ := by
  have hne' : CsvDiff._make_key r2 keys ≠ CsvDiff._make_key r1 keys := fun h => hne h.symm
  refine ⟨rfl, ?_⟩
  simp [CsvDiff.compare_csv_files, CsvDiff._compare_unordered, CsvDiff.buildMap,
    dictInsert, alookup, hk, hne, hne']

/-- Claim C9 witness: keys differing only in letter case ("Alice" vs
"alice") are distinct identities and surface as one removal plus one
addition. -/
theorem C9_witness :
    (["id"] : List String) ≠ [] ∧
    CsvDiff._make_key [("id", "Alice")] ["id"] ≠ CsvDiff._make_key [("id", "alice")] ["id"] ∧
    CsvDiff.compare_csv_files ["id"] [[("id", "Alice")]] ["id"] [[("id", "alice")]] ["id"] false =
      ⟨[⟨"added", CsvDiff.RKey.strs (CsvDiff._make_key [("id", "alice")] ["id"]), [], none,
          some [("id", "alice")]⟩],
        [⟨"removed", CsvDiff.RKey.strs (CsvDiff._make_key [("id", "Alice")] ["id"]), [],
          some [("id", "Alice")], none⟩],
        [], none⟩ :=
  ⟨by decide, by decide,
    ( C9_theorem ["id"] ["id"] [("id", "Alice")] [("id", "alice")] ["id"]
      (by decide) (by decide)).2⟩

-- ### Claim C8

/-- A row differs from itself in no column. -/
theorem diffChanges_self (cols : List String) (r : Row) :
    CsvDiff.diffChanges cols r r = [] := by
  apply List.filterMap_eq_nil_iff.mpr
  intro c _
  simp [CsvDiff.diffChanges]

theorem nodup_fst_foldl_dictInsert {α : Type} [DecidableEq α] (f : Row → α) (rows : List Row) :
    ∀ m : List (α × Row), (m.map Prod.fst).Nodup →
      ((rows.foldl (fun m r => dictInsert m (f r) r) m).map Prod.fst).Nodup := by
  induction rows with
  | nil => intro m hm; exact hm
  | cons r rows ih =>
    intro m hm
    exact ih _ (nodup_fst_dictInsert _ _ hm)

/-- The keyed map has pairwise distinct keys. -/
theorem buildMap_nodup (rows : List Row) (keys : List String) :
    ((CsvDiff.buildMap rows keys).map Prod.fst).Nodup :=
  nodup_fst_foldl_dictInsert _ rows [] (by simp)

theorem compare_ordered_self (h1 h2 : List String) (rows : List Row) :
    CsvDiff._compare_ordered h1 rows h2 rows = ([], [], []) := by
  simp only [CsvDiff._compare_ordered, Nat.max_self, Prod.mk.injEq]
  refine ⟨?_, ?_, ?_⟩
  · apply List.filterMap_eq_nil_iff.mpr
    intro i hi
    rw [if_neg (Nat.not_le.mpr (List.mem_range.mp hi))]
  · apply List.filterMap_eq_nil_iff.mpr
    intro i hi
    simp [Nat.not_le.mpr (List.mem_range.mp hi)]
  · apply List.filterMap_eq_nil_iff.mpr
    intro i hi
    rw [List.get?_eq_get (List.mem_range.mp hi)]
    simp [diffChanges_self]

theorem compare_unordered_self (h1 h2 keys : List String) (rows : List Row) :
    CsvDiff._compare_unordered h1 rows h2 rows keys = ([], [], []) := by
  simp only [CsvDiff._compare_unordered, Prod.mk.injEq]
  have hnd := buildMap_nodup rows keys
  refine ⟨?_, ?_, ?_⟩
  · rw [List.map_eq_nil_iff, List.filter_eq_nil_iff]
    intro p hp
    have h := alookup_isSome_of_mem hp
    rw [Option.isSome_iff_ne_none] at h
    simpa using h
  · rw [List.map_eq_nil_iff, List.filter_eq_nil_iff]
    intro p hp
    have h := alookup_isSome_of_mem hp
    rw [Option.isSome_iff_ne_none] at h
    simpa using h
  · apply List.filterMap_eq_nil_iff.mpr
    intro p hp
    rw [alookup_of_mem_nodup hnd hp]
    simp [diffChanges_self]

theorem compare_multiset_self (h1 h2 : List String) (rows : List Row) :
    CsvDiff.compareMultiset h1 rows h2 rows = ([], [], []) := by
  simp only [CsvDiff.compareMultiset, Prod.mk.injEq]
  refine ⟨?_, ?_, trivial⟩ <;>
  · apply List.flatMap_eq_nil_iff.mpr
    intro t _
    simp [Nat.sub_self]

/-- Claim C8: comparing a source against an identical copy of itself
yields empty added, removed and modified sequences, in every matching
mode (ordered, keyed, multiset). -/
theorem C8_theorem (h keys : List String) (rows : List Row) (ordered : Bool) :
    CsvDiff.compare_csv_files h rows h rows keys ordered = ⟨[], [], [], none⟩ := by
  cases ordered with
  | true => simp [CsvDiff.compare_csv_files, compare_ordered_self]
  | false =>
    by_cases hk : keys = []
    · simp [CsvDiff.compare_csv_files, hk, compare_multiset_self]
    · simp [CsvDiff.compare_csv_files, hk, compare_unordered_self]

-- ### Claim C7

theorem countKey_replicate (m : Nat) (x : CsvDiff.RowChange) (K : CsvDiff.RKey) :
    CsvDiff.countKey (List.replicate m x) K = if x.key = K then m else 0 := by
  rw [CsvDiff.countKey, List.filter_replicate]
  by_cases h : x.key = K <;> simp [h]

theorem countKey_append (l1 l2 : List CsvDiff.RowChange) (K : CsvDiff.RKey) :
    CsvDiff.countKey (l1 ++ l2) K = CsvDiff.countKey l1 K + CsvDiff.countKey l2 K := by
  simp [CsvDiff.countKey, List.filter_append]

theorem countKey_flatMap_replicate (l : List (List String)) (hnd : l.Nodup)
    (n : List String → Nat) (rc : List String → CsvDiff.RowChange)
    (hkey : ∀ t, (rc t).key = CsvDiff.RKey.strs t) (t0 : List String) :
    CsvDiff.countKey (l.flatMap (fun t => List.replicate (n t) (rc t))) (CsvDiff.RKey.strs t0)
      = if t0 ∈ l then n t0 else 0 := by
  induction l with
  | nil => simp [CsvDiff.countKey]
  | cons t l ih =>
    obtain ⟨hnotmem, hnd'⟩ := List.nodup_cons.mp hnd
    rw [List.flatMap_cons, countKey_append, countKey_replicate, hkey, ih hnd']
    by_cases ht : t = t0
    · subst ht
      simp [hnotmem]
    · have : CsvDiff.RKey.strs t ≠ CsvDiff.RKey.strs t0 := by simpa using ht
      rw [if_neg this]
      by_cases ht0 : t0 ∈ l
      · simp [ht0, List.mem_cons, Ne.symm ht]
      · simp [ht0, List.mem_cons, Ne.symm ht]

/-- Claim C7: in multiset mode (no ordering, no keys) the modified
sequence is always empty, and for every full-row tuple the number of
added (resp. removed) RowChanges carrying it equals the surplus of its
count in the new (resp. old) source — Counter subtraction, i.e.
truncated Nat subtraction. -/
theorem C7_theorem (h1 h2 : List String) (rows1 rows2 : List Row) (t : List String) :
    (CsvDiff.compare_csv_files h1 rows1 h2 rows2 [] false).modified = [] ∧
    CsvDiff.countKey (CsvDiff.compare_csv_files h1 rows1 h2 rows2 [] false).added
        (CsvDiff.RKey.strs t)
      = countEq (rows2.map (CsvDiff.tupleOf h1 h2)) t
          - countEq (rows1.map (CsvDiff.tupleOf h1 h2)) t ∧
    CsvDiff.countKey (CsvDiff.compare_csv_files h1 rows1 h2 rows2 [] false).removed
        (CsvDiff.RKey.strs t)
      = countEq (rows1.map (CsvDiff.tupleOf h1 h2)) t
          - countEq (rows2.map (CsvDiff.tupleOf h1 h2)) t := by
  refine ⟨rfl, ?_, ?_⟩
  · show CsvDiff.countKey
      ((firstDedup (rows2.map (CsvDiff.tupleOf h1 h2))).flatMap (fun t =>
        List.replicate
          (countEq (rows2.map (CsvDiff.tupleOf h1 h2)) t
            - countEq (rows1.map (CsvDiff.tupleOf h1 h2)) t) _)) _ = _
    rw [countKey_flatMap_replicate _ (nodup_firstDedup _) _ _ (fun _ => rfl)]
    by_cases ht : t ∈ rows2.map (CsvDiff.tupleOf h1 h2)
    · rw [if_pos ((mem_firstDedup _ _).mpr ht)]
    · rw [if_neg (fun hc => ht ((mem_firstDedup _ _).mp hc)),
        countEq_eq_zero _ _ ht, Nat.zero_sub]
  · show CsvDiff.countKey
      ((firstDedup (rows1.map (CsvDiff.tupleOf h1 h2))).flatMap (fun t =>
        List.replicate
          (countEq (rows1.map (CsvDiff.tupleOf h1 h2)) t
            - countEq (rows2.map (CsvDiff.tupleOf h1 h2)) t) _)) _ = _
    rw [countKey_flatMap_replicate _ (nodup_firstDedup _) _ _ (fun _ => rfl)]
    by_cases ht : t ∈ rows1.map (CsvDiff.tupleOf h1 h2)
    · rw [if_pos ((mem_firstDedup _ _).mpr ht)]
    · rw [if_neg (fun hc => ht ((mem_firstDedup _ _).mp hc)),
        countEq_eq_zero _ _ ht, Nat.zero_sub]

-- ### Claim C6

theorem nodup_fst_filter {α β : Type} (m : List (α × β)) (q : α × β → Bool)
    (hnd : (m.map Prod.fst).Nodup) : ((m.filter q).map Prod.fst).Nodup :=
  hnd.sublist ((List.filter_sublist m).map Prod.fst)

/-- Looking a key up in a map filtered by a key-dependent predicate. -/
theorem alookup_filter_keydep {α β : Type} [DecidableEq α] (q : α → Bool) (k : α) :
    ∀ m : List (α × β),
      alookup (m.filter (fun p => q p.1)) k = if q k then alookup m k else none := by
  intro m
  induction m with
  | nil => simp [alookup]
  | cons p ps ih =>
    rw [List.filter_cons]
    by_cases hpk : p.1 = k
    · subst hpk
      by_cases hq : q p.1
      · rw [if_pos (by simpa using hq)]
        simp [alookup, hq]
      · rw [if_neg (by simpa using hq), ih, if_neg (by simpa using hq),
          if_neg (by simpa using hq)]
    · by_cases hq : q p.1
      · rw [if_pos (by simpa using hq)]
        simp only [alookup, if_neg hpk]
        exact ih
      · rw [if_neg (by simpa using hq), ih]
        by_cases hqk : q k <;> simp [alookup, hpk, hqk]

/-- No entry of a keyless map survives the key filter. -/
theorem filter_key_map_nil (m : List (List String × Row))
    (mk : List String × Row → CsvDiff.RowChange)
    (hkey : ∀ p, (mk p).key = CsvDiff.RKey.strs p.1) (k : List String)
    (h : ∀ p ∈ m, p.1 ≠ k) :
    (m.map mk).filter (fun rc => rc.key = CsvDiff.RKey.strs k) = [] := by
  apply List.filter_eq_nil_iff.mpr
  intro rc hrc
  obtain ⟨p, hp, rfl⟩ := List.mem_map.mp hrc
  simp [hkey p, h p hp]

/-- Filtering a mapped nodup-key map down to one key yields the single
image of that key's entry, or nothing. -/
theorem filter_key_map_of_nodup (mk : List String × Row → CsvDiff.RowChange)
    (hkey : ∀ p, (mk p).key = CsvDiff.RKey.strs p.1) (k : List String) :
    ∀ m : List (List String × Row), (m.map Prod.fst).Nodup →
      (m.map mk).filter (fun rc => rc.key = CsvDiff.RKey.strs k)
        = (match alookup m k with
            | some v => [mk (k, v)]
            | none => []) := by
  intro m
  induction m with
  | nil => intro _; simp [alookup]
  | cons p ps ih =>
    intro hnd
    rw [List.map_cons] at hnd
    obtain ⟨hpn, hnd'⟩ := List.nodup_cons.mp hnd
    rw [List.map_cons, List.filter_cons]
    by_cases hpk : p.1 = k
    · have hrest : ∀ q ∈ ps, q.1 ≠ k := by
        intro q hq hqk
        exact hpn (hpk ▸ hqk ▸ List.mem_map_of_mem Prod.fst hq)
      have hmkk : (mk p).key = CsvDiff.RKey.strs k := by rw [hkey p, hpk]
      rw [if_pos (by simp [hmkk]), filter_key_map_nil ps mk hkey k hrest]
      have hp2 : p = (k, p.2) := by rw [← hpk]
      simp [alookup, hpk, ← hp2]
    · have hmkk : (mk p).key ≠ CsvDiff.RKey.strs k := by
        rw [hkey p]
        simpa using hpk
      rw [if_neg (by simp [hmkk]), ih hnd']
      simp [alookup, hpk]

/-- `filterMap` analogue of `filter_key_map_nil`. -/
theorem filterMap_key_nil (m : List (List String × Row))
    (f : List String × Row → Option CsvDiff.RowChange)
    (hkey : ∀ p rc, f p = some rc → rc.key = CsvDiff.RKey.strs p.1) (k : List String)
    (h : ∀ p ∈ m, p.1 ≠ k) :
    (m.filterMap f).filter (fun rc => rc.key = CsvDiff.RKey.strs k) = [] := by
  apply List.filter_eq_nil_iff.mpr
  intro rc hrc
  obtain ⟨p, hp, hf⟩ := List.mem_filterMap.mp hrc
  simp [hkey p rc hf, h p hp]

/-- `filterMap` analogue of `filter_key_map_of_nodup`. -/
theorem filterMap_key_of_nodup (f : List String × Row → Option CsvDiff.RowChange)
    (hkey : ∀ p rc, f p = some rc → rc.key = CsvDiff.RKey.strs p.1) (k : List String) :
    ∀ m : List (List String × Row), (m.map Prod.fst).Nodup →
      (m.filterMap f).filter (fun rc => rc.key = CsvDiff.RKey.strs k)
        = (match alookup m k with
            | some v => (f (k, v)).toList
            | none => []) := by
  intro m
  induction m with
  | nil => intro _; simp [alookup]
  | cons p ps ih =>
    intro hnd
    rw [List.map_cons] at hnd
    obtain ⟨hpn, hnd'⟩ := List.nodup_cons.mp hnd
    rw [List.filterMap_cons]
    by_cases hpk : p.1 = k
    · have hrest : ∀ q ∈ ps, q.1 ≠ k := by
        intro q hq hqk
        exact hpn (hpk ▸ hqk ▸ List.mem_map_of_mem Prod.fst hq)
      have hp2 : p = (k, p.2) := by rw [← hpk]
      cases hf : f p with
      | none =>
        rw [filterMap_key_nil ps f hkey k hrest]
        simp [alookup, hpk, ← hp2, hf]
      | some rc =>
        have hmkk : rc.key = CsvDiff.RKey.strs k := by rw [hkey p rc hf, hpk]
        rw [List.filter_cons, if_pos (by simp [hmkk]), filterMap_key_nil ps f hkey k hrest]
        simp [alookup, hpk, ← hp2, hf]
    · cases hf : f p with
      | none =>
        rw [ih hnd']
        simp [alookup, hpk]
      | some rc =>
        have hmkk : rc.key ≠ CsvDiff.RKey.strs k := by
          rw [hkey p rc hf]
          simpa using hpk
        rw [List.filter_cons, if_neg (by simp [hmkk]), ih hnd']
        simp [alookup, hpk]

/-- The special shape of `alookup_filter_keydep` used by
`_compare_unordered` (the filter predicate only inspects the key). -/
theorem alookup_filter_isNone {α β : Type} [DecidableEq α] (mo m : List (α × β)) (k : α) :
    alookup (m.filter (fun p => (alookup mo p.1).isNone)) k
      = if (alookup mo k).isNone then alookup m k else none :=
  alookup_filter_keydep (fun x => (alookup mo x).isNone) k m

/-- Claim C6: under keyed matching, after duplicate-key collapsing
(`buildMap`): a key present on exactly one side yields exactly one
removed (resp. added) RowChange and no RowChange of any other kind; a
key present on both sides yields exactly one modified RowChange
carrying all differing columns when at least one column differs, and
no RowChange at all when none differs. -/
theorem C6_theorem (h1 h2 keys k : List String) (rows1 rows2 : List Row) :
    (∀ r1 : Row, alookup (CsvDiff.buildMap rows1 keys) k = some r1 →
      alookup (CsvDiff.buildMap rows2 keys) k = none →
      (CsvDiff._compare_unordered h1 rows1 h2 rows2 keys).2.1.filter
          (fun rc => rc.key = CsvDiff.RKey.strs k)
        = [⟨"removed", CsvDiff.RKey.strs k, [], some r1, none⟩] ∧
      CsvDiff.countKey (CsvDiff._compare_unordered h1 rows1 h2 rows2 keys).1
        (CsvDiff.RKey.strs k) = 0 ∧
      CsvDiff.countKey (CsvDiff._compare_unordered h1 rows1 h2 rows2 keys).2.2
        (CsvDiff.RKey.strs k) = 0) ∧
    (∀ r2 : Row, alookup (CsvDiff.buildMap rows2 keys) k = some r2 →
      alookup (CsvDiff.buildMap rows1 keys) k = none →
      (CsvDiff._compare_unordered h1 rows1 h2 rows2 keys).1.filter
          (fun rc => rc.key = CsvDiff.RKey.strs k)
        = [⟨"added", CsvDiff.RKey.strs k, [], none, some r2⟩] ∧
      CsvDiff.countKey (CsvDiff._compare_unordered h1 rows1 h2 rows2 keys).2.1
        (CsvDiff.RKey.strs k) = 0 ∧
      CsvDiff.countKey (CsvDiff._compare_unordered h1 rows1 h2 rows2 keys).2.2
        (CsvDiff.RKey.strs k) = 0) ∧
    (∀ r1 r2 : Row, alookup (CsvDiff.buildMap rows1 keys) k = some r1 →
      alookup (CsvDiff.buildMap rows2 keys) k = some r2 →
      (CsvDiff.diffChanges (firstDedup (h1 ++ h2)) r1 r2 ≠ [] →
        (CsvDiff._compare_unordered h1 rows1 h2 rows2 keys).2.2.filter
            (fun rc => rc.key = CsvDiff.RKey.strs k)
          = [⟨"modified", CsvDiff.RKey.strs k,
              CsvDiff.diffChanges (firstDedup (h1 ++ h2)) r1 r2, some r1, some r2⟩] ∧
        CsvDiff.countKey (CsvDiff._compare_unordered h1 rows1 h2 rows2 keys).1
          (CsvDiff.RKey.strs k) = 0 ∧
        CsvDiff.countKey (CsvDiff._compare_unordered h1 rows1 h2 rows2 keys).2.1
          (CsvDiff.RKey.strs k) = 0) ∧
      (CsvDiff.diffChanges (firstDedup (h1 ++ h2)) r1 r2 = [] →
        CsvDiff.countKey (CsvDiff._compare_unordered h1 rows1 h2 rows2 keys).1
          (CsvDiff.RKey.strs k) = 0 ∧
        CsvDiff.countKey (CsvDiff._compare_unordered h1 rows1 h2 rows2 keys).2.1
          (CsvDiff.RKey.strs k) = 0 ∧
        CsvDiff.countKey (CsvDiff._compare_unordered h1 rows1 h2 rows2 keys).2.2
          (CsvDiff.RKey.strs k) = 0)) := by
  have hnd1 := buildMap_nodup rows1 keys
  have hnd2 := buildMap_nodup rows2 keys
  have hadd : (CsvDiff._compare_unordered h1 rows1 h2 rows2 keys).1
      = ((CsvDiff.buildMap rows2 keys).filter
          (fun p => (alookup (CsvDiff.buildMap rows1 keys) p.1).isNone)).map
          (fun p => (⟨"added", CsvDiff.RKey.strs p.1, [], none, some p.2⟩ :
            CsvDiff.RowChange)) := rfl
  have hrem : (CsvDiff._compare_unordered h1 rows1 h2 rows2 keys).2.1
      = ((CsvDiff.buildMap rows1 keys).filter
          (fun p => (alookup (CsvDiff.buildMap rows2 keys) p.1).isNone)).map
          (fun p => (⟨"removed", CsvDiff.RKey.strs p.1, [], some p.2, none⟩ :
            CsvDiff.RowChange)) := rfl
  have hmod : (CsvDiff._compare_unordered h1 rows1 h2 rows2 keys).2.2
      = (CsvDiff.buildMap rows1 keys).filterMap (fun p =>
          match alookup (CsvDiff.buildMap rows2 keys) p.1 with
          | none => none
          | some r2 =>
            if CsvDiff.diffChanges (firstDedup (h1 ++ h2)) p.2 r2 = [] then none
            else some ⟨"modified", CsvDiff.RKey.strs p.1,
              CsvDiff.diffChanges (firstDedup (h1 ++ h2)) p.2 r2, some p.2, some r2⟩) := rfl
  have hkeyMod : ∀ (p : List String × Row) (rc : CsvDiff.RowChange),
      (match alookup (CsvDiff.buildMap rows2 keys) p.1 with
        | none => none
        | some r2 =>
          if CsvDiff.diffChanges (firstDedup (h1 ++ h2)) p.2 r2 = [] then none
          else some ⟨"modified", CsvDiff.RKey.strs p.1,
            CsvDiff.diffChanges (firstDedup (h1 ++ h2)) p.2 r2, some p.2, some r2⟩)
        = some rc → rc.key = CsvDiff.RKey.strs p.1 := by
    intro p rc h
    split at h
    · cases h
    · split at h
      · cases h
      · injection h with h
        rw [← h]
  refine ⟨?_, ?_, ?_⟩
  · intro r1 hl1 hl2
    refine ⟨?_, ?_, ?_⟩
    · rw [hrem, filter_key_map_of_nodup _ (fun p => rfl) k _
        (nodup_fst_filter _ _ hnd1), alookup_filter_isNone, hl2]
      simp [hl1]
    · rw [CsvDiff.countKey, hadd, filter_key_map_of_nodup _ (fun p => rfl) k _
        (nodup_fst_filter _ _ hnd2), alookup_filter_isNone, hl1]
      simp
    · rw [CsvDiff.countKey, hmod, filterMap_key_of_nodup _ hkeyMod k _ hnd1, hl1]
      simp [hl2]
  · intro r2 hl2 hl1
    refine ⟨?_, ?_, ?_⟩
    · rw [hadd, filter_key_map_of_nodup _ (fun p => rfl) k _
        (nodup_fst_filter _ _ hnd2), alookup_filter_isNone, hl1]
      simp [hl2]
    · rw [CsvDiff.countKey, hrem, filter_key_map_of_nodup _ (fun p => rfl) k _
        (nodup_fst_filter _ _ hnd1), alookup_filter_isNone, hl2]
      simp
    · rw [CsvDiff.countKey, hmod, filterMap_key_of_nodup _ hkeyMod k _ hnd1, hl1]
      simp [hl2]
  · intro r1 r2 hl1 hl2
    constructor
    · intro hdiff
      refine ⟨?_, ?_, ?_⟩
      · rw [hmod, filterMap_key_of_nodup _ hkeyMod k _ hnd1, hl1]
        simp only [hl2]
        rw [if_neg hdiff]
        rfl
      · rw [CsvDiff.countKey, hadd, filter_key_map_of_nodup _ (fun p => rfl) k _
          (nodup_fst_filter _ _ hnd2), alookup_filter_isNone, hl1]
        simp
      · rw [CsvDiff.countKey, hrem, filter_key_map_of_nodup _ (fun p => rfl) k _
          (nodup_fst_filter _ _ hnd1), alookup_filter_isNone, hl2]
        simp
    · intro hdiff
      refine ⟨?_, ?_, ?_⟩
      · rw [CsvDiff.countKey, hadd, filter_key_map_of_nodup _ (fun p => rfl) k _
          (nodup_fst_filter _ _ hnd2), alookup_filter_isNone, hl1]
        simp
      · rw [CsvDiff.countKey, hrem, filter_key_map_of_nodup _ (fun p => rfl) k _
          (nodup_fst_filter _ _ hnd1), alookup_filter_isNone, hl2]
        simp
      · rw [CsvDiff.countKey, hmod, filterMap_key_of_nodup _ hkeyMod k _ hnd1, hl1]
        simp only [hl2]
        rw [if_pos hdiff]
        rfl

/-- Claim C6 witness: key ("2") present only on the old side produces
exactly one removed RowChange and nothing else under that key. -/
theorem C6_witness :
    alookup (CsvDiff.buildMap [[("id", "2"), ("v", "b")]] ["id"]) ["2"]
      = some [("id", "2"), ("v", "b")] ∧
    alookup (CsvDiff.buildMap [[("id", "3"), ("v", "c")]] ["id"]) ["2"] = none ∧
    ((CsvDiff._compare_unordered ["id", "v"] [[("id", "2"), ("v", "b")]]
        ["id", "v"] [[("id", "3"), ("v", "c")]] ["id"]).2.1.filter
        (fun rc => rc.key = CsvDiff.RKey.strs ["2"])
      = [⟨"removed", CsvDiff.RKey.strs ["2"], [], some [("id", "2"), ("v", "b")], none⟩] ∧
      CsvDiff.countKey (CsvDiff._compare_unordered ["id", "v"] [[("id", "2"), ("v", "b")]]
        ["id", "v"] [[("id", "3"), ("v", "c")]] ["id"]).1 (CsvDiff.RKey.strs ["2"]) = 0 ∧
      CsvDiff.countKey (CsvDiff._compare_unordered ["id", "v"] [[("id", "2"), ("v", "b")]]
        ["id", "v"] [[("id", "3"), ("v", "c")]] ["id"]).2.2 (CsvDiff.RKey.strs ["2"]) = 0) :=
  ⟨by decide, by decide,
    ( C6_theorem ["id", "v"] ["id", "v"] ["id"] ["2"] [[("id", "2"), ("v", "b")]]
      [[("id", "3"), ("v", "c")]]).1 [("id", "2"), ("v", "b")] (by decide) (by decide)⟩
